import Mathlib

/-!
Verification of the n8n Advance Gemini node (image / speech / video generation
pipeline).  The definitions below are a shallow embedding of the TypeScript
source: pure functions are translated directly, effectful code (S3 upload
retries, the polling loop, the ffmpeg subprocess, the streamed random draws)
is modelled by passing the outcome of each external interaction in as an
explicit oracle argument, and thrown exceptions become `Except` values or
explicit error constructors.  Machine integers do not overflow in the ranges
exercised here, so numbers are `Nat`/`Int`.

JavaScript string primitives are modelled by structurally recursive functions
over the character list of the string, so that every definition evaluates by
kernel reduction.
-/

/-! ## String helpers (models of the JavaScript string primitives used) -/

/-- Does `pat` occur as a contiguous sublist of the character list?  Model of
JavaScript `String.prototype.includes`. -/
def listContainsSub (pat : List Char) : List Char → Bool
  | [] => pat.isEmpty
  | c :: rest => pat.isPrefixOf (c :: rest) || listContainsSub pat rest

/-- Model of JavaScript `s.includes(pat)`. -/
def strContainsSub (s pat : String) : Bool :=
  listContainsSub pat.data s.data

/-- Model of JavaScript `s.startsWith(pat)`. -/
def strStartsWith (s pat : String) : Bool :=
  pat.data.isPrefixOf s.data

/-- JavaScript truthiness of a string: non-empty. -/
def jsTruthy (s : String) : Bool :=
  !s.data.isEmpty

/-- White-space class used by JavaScript `String.prototype.trim` (restricted
to the code points occurring in this code base). -/
def isJsWhitespace (c : Char) : Bool :=
  c = ' ' || c = '\t' || c = '\n' || c = '\r'

/-- Model of JavaScript `s.trim()`. -/
def jsTrim (s : String) : String :=
  ⟨((s.data.dropWhile isJsWhitespace).reverse.dropWhile isJsWhitespace).reverse⟩

/-- Model of JavaScript `s.replace(/\/$/, '')`: drop one trailing slash. -/
def stripTrailingSlash (s : String) : String :=
  if s.data.getLast? = some '/' then ⟨s.data.dropLast⟩ else s

/-- Characters strictly before the first occurrence of `pat` (the whole list
when `pat` does not occur).  For non-empty `pat` this is element 0 of the
JavaScript `s.split(pat)` array. -/
def takeUntilSub (pat : List Char) : List Char → List Char
  | [] => []
  | c :: rest =>
    if pat.isPrefixOf (c :: rest) then [] else c :: takeUntilSub pat rest

/-- Characters after the first occurrence of `pat`, or `none` when `pat` does
not occur. -/
def afterSub (pat : List Char) : List Char → Option (List Char)
  | [] => none
  | c :: rest =>
    if pat.isPrefixOf (c :: rest) then some ((c :: rest).drop pat.length)
    else afterSub pat rest

/-- Element 1 of the JavaScript `s.split(pat)` array for non-empty `pat`, as
interpolated into a template literal: the segment between the first and the
second occurrence of `pat`, or the string "undefined" when `pat` occurs less
than once. -/
def jsSplitGet1 (pat : List Char) (s : List Char) : String :=
  match afterSub pat s with
  | some r => ⟨takeUntilSub pat r⟩
  | none => "undefined"

namespace S3Utils

/-- Construction of the public URL of an uploaded object, embedded from the
body of `S3Utils.uploadToS3` (src/unnamed/part_002, lines 67-92).  The
`publicDomain` and `endpoint` parameters model the JavaScript strings, with
the empty string standing for an absent (undefined) value, exactly matching
the truthiness tests of the source. -/
def buildPublicUrl (publicDomain endpoint : String) (forcePathStyle : Bool)
    (bucketName fileName region : String) : String :=
  if jsTruthy publicDomain && jsTruthy (jsTrim publicDomain) then
    stripTrailingSlash publicDomain ++ "/" ++ fileName
  else if jsTruthy endpoint then
    let cleanEndpoint := stripTrailingSlash endpoint
    if forcePathStyle then
      cleanEndpoint ++ "/" ++ bucketName ++ "/" ++ fileName
    else
      let protocol : String := ⟨takeUntilSub "://".data cleanEndpoint.data⟩
      let domain := jsSplitGet1 "://".data cleanEndpoint.data
      protocol ++ "://" ++ bucketName ++ "." ++ domain ++ "/" ++ fileName
  else
    "https://" ++ bucketName ++ ".s3." ++ region ++ ".amazonaws.com/" ++ fileName

end S3Utils

namespace VideoUtils

/-- Result object of `createVideoObject` (src/unnamed/part_004, interface
`VideoObject`). -/
structure VideoObject where
  uri : String
deriving Repr, DecidableEq

/-- Character class `[a-zA-Z0-9_-]` of the bare-file-id regular expression in
`createVideoObject`. -/
def isIdChar (c : Char) : Bool :=
  (decide ('a' ≤ c) && decide (c ≤ 'z')) || (decide ('A' ≤ c) && decide (c ≤ 'Z')) ||
    (decide ('0' ≤ c) && decide (c ≤ '9')) || c = '_' || c = '-'

/-- Model of `trimmedUri.match(/^[a-zA-Z0-9_-]+$/)` viewed as a Boolean: the
string is non-empty and every character is in the id class. -/
def isBareId (s : String) : Bool :=
  !s.data.isEmpty && s.data.all isIdChar

/-- Embedding of `VideoUtils.createVideoObject`
(src/nodes/Gemini/utils/videoUtils.ts, lines 49-82).  Thrown `Error`s become
`Except.error` carrying a short tag for the message. -/
def createVideoObject (videoUri : String) : Except String VideoObject :=
  if !jsTruthy videoUri || !jsTruthy (jsTrim videoUri) then
    .error "Video URI cannot be empty"
  else
    let trimmedUri := jsTrim videoUri
    let isValidFormat :=
      strContainsSub trimmedUri "generativelanguage.googleapis.com" ||
      strStartsWith trimmedUri "files/" ||
      isBareId trimmedUri
    if !isValidFormat then
      .error "Invalid video URI format"
    else
      let finalUri := if isBareId trimmedUri then "files/" ++ trimmedUri else trimmedUri
      .ok { uri := finalUri }

end VideoUtils

/-! ## C3: S3 public URL construction precedence -/

/-- C3: for every successful upload the returned URL follows the precedence
public-domain override, then custom endpoint path-style, then custom endpoint
virtual-hosted style, then the default AWS pattern.  The first conjunct holds
for arbitrary endpoint settings, so the public-domain override ignores them. -/
theorem uploadUrl_precedence (publicDomain endpoint : String) (forcePathStyle : Bool)
    (bucketName fileName region : String) :
    (jsTruthy (jsTrim publicDomain) = true →
      S3Utils.buildPublicUrl publicDomain endpoint forcePathStyle bucketName fileName region =
        stripTrailingSlash publicDomain ++ "/" ++ fileName) ∧
    (jsTruthy (jsTrim publicDomain) = false → jsTruthy endpoint = true → forcePathStyle = true →
      S3Utils.buildPublicUrl publicDomain endpoint forcePathStyle bucketName fileName region =
        stripTrailingSlash endpoint ++ "/" ++ bucketName ++ "/" ++ fileName) ∧
    (jsTruthy (jsTrim publicDomain) = false → jsTruthy endpoint = true → forcePathStyle = false →
      S3Utils.buildPublicUrl publicDomain endpoint forcePathStyle bucketName fileName region =
        String.mk (takeUntilSub "://".data (stripTrailingSlash endpoint).data) ++ "://" ++
          bucketName ++ "." ++ jsSplitGet1 "://".data (stripTrailingSlash endpoint).data ++
          "/" ++ fileName) ∧
    (jsTruthy (jsTrim publicDomain) = false → jsTruthy endpoint = false →
      S3Utils.buildPublicUrl publicDomain endpoint forcePathStyle bucketName fileName region =
        "https://" ++ bucketName ++ ".s3." ++ region ++ ".amazonaws.com/" ++ fileName) := by
  refine ⟨?_, ?_, ?_, ?_⟩
  · intro h1
    have hpd : jsTruthy publicDomain = true := by
      cases hx : publicDomain.data with
      | nil =>
        exfalso
        have : jsTrim publicDomain = ⟨[]⟩ := by
          simp [jsTrim, hx]
        rw [this] at h1
        simp [jsTruthy] at h1
      | cons c cs => simp [jsTruthy, hx]
    simp [S3Utils.buildPublicUrl, hpd, h1]
  · intro h1 h2 h3
    simp [S3Utils.buildPublicUrl, h1, h2, h3]
  · intro h1 h2 h3
    simp [S3Utils.buildPublicUrl, h1, h2, h3]
  · intro h1 h2
    simp [S3Utils.buildPublicUrl, h1, h2]

/-- Witness for C3: concrete evaluation of the default pattern and of the
public-domain override in the presence of a configured endpoint. -/
theorem uploadUrl_precedence_witness :
    S3Utils.buildPublicUrl "" "" true "b" "k" "us-east-1" =
      "https://b.s3.us-east-1.amazonaws.com/k" ∧
    S3Utils.buildPublicUrl "https://cdn.example.com/" "https://min.example:9000" false "b" "k"
      "us-east-1" = "https://cdn.example.com/k" := by
  constructor
  · exact (uploadUrl_precedence "" "" true "b" "k" "us-east-1").2.2.2 (by decide) (by decide)
  · exact (uploadUrl_precedence "https://cdn.example.com/" "https://min.example:9000" false "b" "k"
      "us-east-1").1 (by decide)

/-! ## C6: createVideoObject input acceptance -/

/-- Helper: a non-empty trimmed form forces a non-empty original string. -/
theorem jsTruthy_of_trim {s : String} (h : jsTruthy (jsTrim s) = true) :
    jsTruthy s = true := by
  cases hx : s.data with
  | nil =>
    exfalso
    have : jsTrim s = ⟨[]⟩ := by simp [jsTrim, hx]
    rw [this] at h
    simp [jsTruthy] at h
  | cons c cs => simp [jsTruthy, hx]

/-- Helper: a falsy string has an empty character list. -/
theorem data_nil_of_not_truthy {s : String} (h : jsTruthy s = false) : s.data = [] := by
  cases hx : s.data with
  | nil => rfl
  | cons c cs => rw [jsTruthy, hx] at h; simp at h

/-- Helper: closed form of `createVideoObject` on an input with a non-empty
trimmed form. -/
theorem createVideoObject_eq (s : String) (ht : jsTruthy (jsTrim s) = true) :
    VideoUtils.createVideoObject s =
      (if (strContainsSub (jsTrim s) "generativelanguage.googleapis.com" ||
           strStartsWith (jsTrim s) "files/" ||
           VideoUtils.isBareId (jsTrim s)) then
        Except.ok ⟨if VideoUtils.isBareId (jsTrim s) then "files/" ++ jsTrim s else jsTrim s⟩
      else
        Except.error "Invalid video URI format") := by
  have hs := jsTruthy_of_trim ht
  by_cases hb : (strContainsSub (jsTrim s) "generativelanguage.googleapis.com" ||
      strStartsWith (jsTrim s) "files/" || VideoUtils.isBareId (jsTrim s)) = true
  · simp [VideoUtils.createVideoObject, hs, ht, hb]
  · have hbf := Bool.eq_false_iff.mpr hb
    simp [VideoUtils.createVideoObject, hs, ht, hbf]

/-- C6: `createVideoObject` accepts exactly the inputs whose trimmed form
contains the provider host, or starts with "files/", or is a bare id matching
`[A-Za-z0-9_-]+`; a bare id is normalized to `files/<id>`, any other accepted
input is returned in its trimmed form, and `"http://evil.example/x"` is
rejected with an error. -/
theorem createVideoObject_spec (s : String) :
    ((∃ v, VideoUtils.createVideoObject s = .ok v) ↔
      (strContainsSub (jsTrim s) "generativelanguage.googleapis.com" = true ∨
       strStartsWith (jsTrim s) "files/" = true ∨
       VideoUtils.isBareId (jsTrim s) = true)) ∧
    (VideoUtils.isBareId (jsTrim s) = true →
      VideoUtils.createVideoObject s = .ok ⟨"files/" ++ jsTrim s⟩) ∧
    ((strContainsSub (jsTrim s) "generativelanguage.googleapis.com" = true ∨
      strStartsWith (jsTrim s) "files/" = true) →
      VideoUtils.isBareId (jsTrim s) = false →
      VideoUtils.createVideoObject s = .ok ⟨jsTrim s⟩) ∧
    VideoUtils.createVideoObject "http://evil.example/x" =
      .error "Invalid video URI format" := by
  by_cases ht : jsTruthy (jsTrim s) = true
  · have heq := createVideoObject_eq s ht
    refine ⟨?_, ?_, ?_, by rfl⟩
    · rw [heq]
      constructor
      · rintro ⟨v, hv⟩
        by_cases hb : (strContainsSub (jsTrim s) "generativelanguage.googleapis.com" ||
            strStartsWith (jsTrim s) "files/" || VideoUtils.isBareId (jsTrim s)) = true
        · simpa [Bool.or_eq_true, or_assoc] using hb
        · have hbf := Bool.eq_false_iff.mpr hb
          rw [hbf] at hv
          simp at hv
      · intro h
        have hb : (strContainsSub (jsTrim s) "generativelanguage.googleapis.com" ||
            strStartsWith (jsTrim s) "files/" || VideoUtils.isBareId (jsTrim s)) = true := by
          simpa [Bool.or_eq_true, or_assoc] using h
        rw [hb]
        exact ⟨_, rfl⟩
    · intro h
      rw [heq]
      simp [h]
    · intro h hbare
      have hb : (strContainsSub (jsTrim s) "generativelanguage.googleapis.com" ||
          strStartsWith (jsTrim s) "files/" || VideoUtils.isBareId (jsTrim s)) = true := by
        rcases h with h | h <;> simp [h]
      rw [heq, hb]
      simp [hbare]
  · have htf := Bool.eq_false_iff.mpr ht
    have hnil : (jsTrim s).data = [] := data_nil_of_not_truthy htf
    have herr : VideoUtils.createVideoObject s = .error "Video URI cannot be empty" := by
      simp [VideoUtils.createVideoObject, htf]
    refine ⟨?_, ?_, ?_, by rfl⟩
    · constructor
      · rintro ⟨v, hv⟩
        rw [herr] at hv
        simp at hv
      · intro h
        exfalso
        rcases h with h | h | h
        · rw [strContainsSub, hnil] at h
          simp [listContainsSub] at h
        · rw [strStartsWith, hnil] at h
          simp [List.isPrefixOf] at h
        · rw [VideoUtils.isBareId, hnil] at h
          simp at h
    · intro h
      exfalso
      rw [VideoUtils.isBareId, hnil] at h
      simp at h
    · intro h
      exfalso
      rcases h with h | h
      · rw [strContainsSub, hnil] at h
        simp [listContainsSub] at h
      · rw [strStartsWith, hnil] at h
        simp [List.isPrefixOf] at h

/-- Witness for C6: the bare id "abc123" is normalized, and a padded
"files/xyz" reference is returned trimmed. -/
theorem createVideoObject_spec_witness :
    VideoUtils.createVideoObject "abc123" = .ok ⟨"files/abc123"⟩ ∧
    VideoUtils.createVideoObject " files/xyz " = .ok ⟨"files/xyz"⟩ := by
  constructor
  · have h := (createVideoObject_spec "abc123").2.1 (by decide)
    have he : jsTrim "abc123" = "abc123" := by decide
    rw [he] at h
    exact h
  · have h := (createVideoObject_spec " files/xyz ").2.2.1 (Or.inr (by decide)) (by decide)
    have he : jsTrim " files/xyz " = "files/xyz" := by decide
    rw [he] at h
    exact h

/-! ## C1: duration / resolution restriction -/

namespace GenerateVideoDescription

/-- One `durationSeconds` property entry of the node description
(src/nodes/Gemini/descriptions/GenerateVideoDescription.ts): the resolutions
under which the entry is shown (`displayOptions.show.resolution`) and the
selectable option values. -/
structure DurationDescEntry where
  showResolutions : List String
  optionValues : List String
deriving Repr, DecidableEq

/-- The two `durationSeconds` entries of `generateVideoFields`
(GenerateVideoDescription.ts, lines 123-168). -/
def durationSecondsEntries : List DurationDescEntry :=
  [⟨["720p"], ["4", "6", "8"]⟩, ⟨["1080p"], ["8"]⟩]

/-- Option values selectable in the UI for a given resolution: the values of
every `durationSeconds` entry whose display condition shows it. -/
def allowedDurations (resolution : String) : List String :=
  ((durationSecondsEntries.filter
      (fun p => p.showResolutions.contains resolution)).map
    (fun p => p.optionValues)).flatten

end GenerateVideoDescription

/-- Leading decimal digits of a character list. -/
def leadingDigits : List Char → List Char
  | [] => []
  | c :: rest => if c.isDigit then c :: leadingDigits rest else []

/-- Numeric value of a digit list (most significant first). -/
def digitsToNat (l : List Char) : Nat :=
  l.foldl (fun acc c => 10 * acc + (c.toNat - '0'.toNat)) 0

/-- Model of JavaScript `parseInt(s, 10)`: trim, optional sign, value of the
leading digit run; `none` models `NaN`. -/
def jsParseInt (s : String) : Option Int :=
  match (jsTrim s).data with
  | '-' :: rest =>
    let d := leadingDigits rest
    if d.isEmpty then none else some (-(digitsToNat d : Int))
  | '+' :: rest =>
    let d := leadingDigits rest
    if d.isEmpty then none else some (digitsToNat d)
  | t =>
    let d := leadingDigits t
    if d.isEmpty then none else some (digitsToNat d)

namespace Gemini

/-- The parameters of one `generateVideo` item that are read before the
provider request is built (src/unnamed/part_001, lines 517-566).  The
`aspectRatioParam` field models the `aspectRatio` node parameter. -/
structure VideoParams where
  generationMode : String
  videoPrompt : String
  startFrameUrl : String
  referenceImages : List String
  inputVideoUri : String
  resolution : String
  durationSecondsRaw : String
  personGeneration : String
  aspectRatioParam : String
deriving Repr, DecidableEq

/-- Embedding of `VideoUtils.validateParameters`
(src/nodes/Gemini/utils/videoUtils.ts, lines 106-154). -/
def validateParameters (mode : String) (p : VideoParams) : Except String Unit :=
  if mode = "textToVideo" then
    if !jsTruthy p.videoPrompt || !jsTruthy (jsTrim p.videoPrompt) then
      .error "Video prompt is required for text-to-video mode"
    else .ok ()
  else if mode = "framesToVideo" then
    if !jsTruthy p.startFrameUrl || !jsTruthy (jsTrim p.startFrameUrl) then
      .error "Start frame URL is required for frames-to-video mode"
    else .ok ()
  else if mode = "referencesToVideo" then
    if p.referenceImages.isEmpty then
      .error "At least one reference image is required for references-to-video mode"
    else .ok ()
  else if mode = "extendVideo" then
    if !jsTruthy p.inputVideoUri || !jsTruthy (jsTrim p.inputVideoUri) then
      .error "Input video URI is required for extend-video mode"
    else .ok ()
  else
    .error "Unknown generation mode"

/-- The provider config object built before submission.  Field `aspect`
models the `aspectRatio` field of the source config; `durationSeconds` uses
`none` for `NaN`. -/
structure VideoConfig where
  numberOfVideos : Nat
  resolution : String
  aspect : Option String
  durationSeconds : Option Int
  personGeneration : Option String
deriving Repr, DecidableEq

/-- Embedding of `VideoUtils.buildVideoConfig`
(src/nodes/Gemini/utils/videoUtils.ts, lines 170-186); `numberOfVideos || 1`
maps a falsy (zero / absent) count to 1. -/
def buildVideoConfig (resolution : String) (aspect : Option String)
    (numberOfVideos : Option Nat) : VideoConfig :=
  { numberOfVideos :=
      match numberOfVideos with
      | some n => if n = 0 then 1 else n
      | none => 1
    resolution := resolution
    aspect := aspect
    durationSeconds := none
    personGeneration := none }

/-- Embedding of the pre-submission part of the `generateVideo` branch of
`Gemini.execute` (src/unnamed/part_001, lines 517-566): parameter validation
followed by construction of the provider config that is passed to
`ai.models.generateVideos`.  An `Except.ok` value means the provider request
is submitted with that config. -/
def prepareVideoRequest (p : VideoParams) : Except String VideoConfig :=
  match validateParameters p.generationMode p with
  | .error e => .error e
  | .ok _ =>
    let aspectOpt := if p.generationMode ≠ "extendVideo" then some p.aspectRatioParam else none
    let config := buildVideoConfig p.resolution aspectOpt (some 1)
    let config := { config with durationSeconds := jsParseInt p.durationSecondsRaw }
    let config :=
      if jsTruthy p.personGeneration then
        { config with personGeneration := some p.personGeneration }
      else config
    .ok config

end Gemini

/-- C1 counterexample: with resolution 1080p and durationSeconds "4" the
pre-submission phase raises no ValidationError; the request preparation
succeeds and forwards durationSeconds = 4 to the provider config.  This
refutes the claim that an unsupported resolution / duration combination is
rejected before any provider request. -/
theorem durationRestriction_counterexample :
    Gemini.prepareVideoRequest
        ⟨"textToVideo", "a cat on a beach", "", [], "", "1080p", "4", "", "16:9"⟩ =
      .ok ⟨1, "1080p", some "16:9", some 4, none⟩ := by
  rfl

/-- C1 amended: the resolution-dependent duration sets live only in the UI
description — the selectable `durationSeconds` option values are exactly
{4,6,8} for 720p and {8} for 1080p — while the execute path performs no
duration validation at all: changing `durationSecondsRaw` in an accepted
parameter set never causes a rejection and simply substitutes the parsed
duration in the submitted provider config. -/
theorem durationRestriction_ui_only (p : Gemini.VideoParams) (d : String) :
    GenerateVideoDescription.allowedDurations "720p" = ["4", "6", "8"] ∧
    GenerateVideoDescription.allowedDurations "1080p" = ["8"] ∧
    (∀ c, Gemini.prepareVideoRequest p = .ok c →
      Gemini.prepareVideoRequest { p with durationSecondsRaw := d } =
        .ok { c with durationSeconds := jsParseInt d }) := by
  refine ⟨by rfl, by rfl, ?_⟩
  intro c hc
  have hval : Gemini.validateParameters (Gemini.VideoParams.generationMode
      { p with durationSecondsRaw := d }) { p with durationSecondsRaw := d } =
      Gemini.validateParameters p.generationMode p := rfl
  unfold Gemini.prepareVideoRequest at hc ⊢
  rw [hval]
  cases hv : Gemini.validateParameters p.generationMode p with
  | error e =>
    rw [hv] at hc
    exact absurd hc (by simp)
  | ok u =>
    rw [hv] at hc
    simp only [Except.ok.injEq] at hc
    subst hc
    by_cases hp : jsTruthy p.personGeneration = true
    · simp [hp]
    · have hpf := Bool.eq_false_iff.mpr hp
      simp [hpf]

/-- Witness for C1 amended: a valid 720p text-to-video parameter set with
duration 8, re-submitted with duration 6. -/
theorem durationRestriction_ui_only_witness :
    Gemini.prepareVideoRequest
        ⟨"textToVideo", "a dog", "", [], "", "720p", "6", "", "16:9"⟩ =
      .ok ⟨1, "720p", some "16:9", some 6, none⟩ := by
  have h := (durationRestriction_ui_only
      ⟨"textToVideo", "a dog", "", [], "", "720p", "8", "", "16:9"⟩ "6").2.2
      ⟨1, "720p", some "16:9", some 8, none⟩ (by rfl)
  have he : jsParseInt "6" = some 6 := by rfl
  rw [he] at h
  exact h

/-! ## C2: upload retry classification, backoff, and exhaustion -/

namespace S3Utils

/-- The fields of a caught JavaScript error inspected by the retry loop. -/
structure JsError where
  code : Option String
  name : Option String
  message : String
deriving Repr, DecidableEq

/-- Embedding of the transient-failure test of `uploadToS3`
(src/unnamed/part_002, line 96). -/
def isNetworkError (e : JsError) : Bool :=
  e.code == some "ENOTFOUND" || e.code == some "EAI_AGAIN" || e.name == some "TimeoutError"

/-- Outcome of one `upload.done()` call, supplied as an oracle indexed by the
1-based attempt number. -/
inductive UploadOutcome where
  | success
  | failure (e : JsError)
deriving Repr, DecidableEq

/-- Observable trace of the retry loop: number of attempts performed, the
backoff delays slept (in milliseconds, in order), and the returned URL or the
thrown error message. -/
structure UploadTrace where
  attemptsMade : Nat
  delays : List Nat
  result : Except String String
deriving Repr

/-- The message of the `NodeOperationError` thrown after the loop
(src/unnamed/part_002, lines 108-111); an absent last error interpolates as
"undefined". -/
def failMsg (maxRetries : Nat) (lastError : Option JsError) : String :=
  "Failed to upload to S3 after " ++ toString maxRetries ++ " attempts: " ++
    (match lastError with
     | some e => e.message
     | none => "undefined")

/-- Embedding of the retry loop of `uploadToS3` (src/unnamed/part_002, lines
61-111).  `attempt` is the 1-based loop counter, `fuel` bounds the remaining
iterations (the loop itself runs `attempt` from 1 to `maxRetries`, so
`maxRetries` fuel is exact), `lastError` is the `lastError` variable. -/
def uploadGo (outcome : Nat → UploadOutcome) (maxRetries : Nat) (url : String) :
    Nat → Nat → Option JsError → UploadTrace
  | _attempt, 0, lastError => ⟨0, [], .error (failMsg maxRetries lastError)⟩
  | attempt, fuel + 1, lastError =>
    if maxRetries < attempt then ⟨0, [], .error (failMsg maxRetries lastError)⟩
    else
      match outcome attempt with
      | .success => ⟨1, [], .ok url⟩
      | .failure e =>
        if attempt = maxRetries || !isNetworkError e then
          ⟨1, [], .error (failMsg maxRetries (some e))⟩
        else
          let rest := uploadGo outcome maxRetries url (attempt + 1) fuel (some e)
          ⟨rest.attemptsMade + 1, 2 ^ attempt * 100 :: rest.delays, rest.result⟩

/-- The whole retry portion of `uploadToS3`: loop from attempt 1 with the
last-error variable unset. -/
def uploadToS3 (outcome : Nat → UploadOutcome) (maxRetries : Nat) (url : String) : UploadTrace :=
  uploadGo outcome maxRetries url 1 maxRetries none

/-- Helper: out-of-range unfolding of the loop. -/
theorem uploadGo_out (outcome : Nat → UploadOutcome) (maxRetries url attempt fuel)
    (lastError : Option JsError) (h : maxRetries < attempt) :
    uploadGo outcome maxRetries url attempt fuel lastError =
      ⟨0, [], .error (failMsg maxRetries lastError)⟩ := by
  cases fuel with
  | zero => simp [uploadGo]
  | succ n => simp [uploadGo, h]

/-- Helper: unfolding of a successful attempt. -/
theorem uploadGo_success_step (outcome : Nat → UploadOutcome) (maxRetries url attempt fuel)
    (lastError : Option JsError) (hgt : ¬ maxRetries < attempt)
    (he : outcome attempt = .success) :
    uploadGo outcome maxRetries url attempt (fuel + 1) lastError = ⟨1, [], .ok url⟩ := by
  simp only [uploadGo, hgt, if_false]
  rw [he]

/-- Helper: unfolding of a failed attempt that stops the loop. -/
theorem uploadGo_stop_step (outcome : Nat → UploadOutcome) (maxRetries url attempt fuel)
    (lastError : Option JsError) (e : JsError) (hgt : ¬ maxRetries < attempt)
    (he : outcome attempt = .failure e)
    (hstop : (attempt = maxRetries || !isNetworkError e) = true) :
    uploadGo outcome maxRetries url attempt (fuel + 1) lastError =
      ⟨1, [], .error (failMsg maxRetries (some e))⟩ := by
  simp only [uploadGo, hgt, if_false]
  rw [he]
  simp [hstop]

/-- Helper: unfolding of a failed attempt that is retried. -/
theorem uploadGo_retry_step (outcome : Nat → UploadOutcome) (maxRetries url attempt fuel)
    (lastError : Option JsError) (e : JsError) (hgt : ¬ maxRetries < attempt)
    (he : outcome attempt = .failure e)
    (hstop : (attempt = maxRetries || !isNetworkError e) = false) :
    uploadGo outcome maxRetries url attempt (fuel + 1) lastError =
      ⟨(uploadGo outcome maxRetries url (attempt + 1) fuel (some e)).attemptsMade + 1,
        2 ^ attempt * 100 :: (uploadGo outcome maxRetries url (attempt + 1) fuel (some e)).delays,
        (uploadGo outcome maxRetries url (attempt + 1) fuel (some e)).result⟩ := by
  simp only [uploadGo, hgt, if_false]
  rw [he]
  simp [hstop]

/-- Helper: the loop performs at most `fuel` attempts. -/
theorem uploadGo_attempts_le (outcome : Nat → UploadOutcome) (maxRetries : Nat) (url : String) :
    ∀ fuel attempt lastError,
      (uploadGo outcome maxRetries url attempt fuel lastError).attemptsMade ≤ fuel := by
  intro fuel
  induction fuel with
  | zero => intro attempt lastError; simp [uploadGo]
  | succ n ih =>
    intro attempt lastError
    by_cases hgt : maxRetries < attempt
    · rw [uploadGo_out outcome maxRetries url attempt (n + 1) lastError hgt]
      simp
    · cases houtcome : outcome attempt with
      | success =>
        rw [uploadGo_success_step outcome maxRetries url attempt n lastError hgt houtcome]
        simp
      | failure e =>
        by_cases hstop : (attempt = maxRetries || !isNetworkError e) = true
        · rw [uploadGo_stop_step outcome maxRetries url attempt n lastError e hgt houtcome hstop]
          simp
        · rw [uploadGo_retry_step outcome maxRetries url attempt n lastError e hgt houtcome
            (Bool.eq_false_iff.mpr hstop)]
          exact Nat.succ_le_succ (ih (attempt + 1) (some e))

/-- Helper: with adequate fuel and the counter within range, at least one
attempt is performed. -/
theorem uploadGo_attempts_pos (outcome : Nat → UploadOutcome) (maxRetries : Nat) (url : String)
    (fuel attempt : Nat) (lastError : Option JsError)
    (hfuel : maxRetries + 1 ≤ attempt + fuel) (hle : attempt ≤ maxRetries) :
    1 ≤ (uploadGo outcome maxRetries url attempt fuel lastError).attemptsMade := by
  cases fuel with
  | zero => omega
  | succ n =>
    have hgt : ¬ maxRetries < attempt := by omega
    cases houtcome : outcome attempt with
    | success =>
      rw [uploadGo_success_step outcome maxRetries url attempt n lastError hgt houtcome]
    | failure e =>
      by_cases hstop : (attempt = maxRetries || !isNetworkError e) = true
      · rw [uploadGo_stop_step outcome maxRetries url attempt n lastError e hgt houtcome hstop]
      · rw [uploadGo_retry_step outcome maxRetries url attempt n lastError e hgt houtcome
          (Bool.eq_false_iff.mpr hstop)]
        simp

/-- Helper: the delays slept are exactly `2 ^ n * 100` for the attempts `n`
after which a retry happened. -/
theorem uploadGo_delays (outcome : Nat → UploadOutcome) (maxRetries : Nat) (url : String) :
    ∀ fuel attempt lastError, maxRetries + 1 ≤ attempt + fuel →
      (uploadGo outcome maxRetries url attempt fuel lastError).delays =
        (List.range' attempt
            ((uploadGo outcome maxRetries url attempt fuel lastError).attemptsMade - 1)).map
          (fun n => 2 ^ n * 100) := by
  intro fuel
  induction fuel with
  | zero =>
    intro attempt lastError hfuel
    simp [uploadGo]
  | succ n ih =>
    intro attempt lastError hfuel
    by_cases hgt : maxRetries < attempt
    · rw [uploadGo_out outcome maxRetries url attempt (n + 1) lastError hgt]
      simp
    · cases houtcome : outcome attempt with
      | success =>
        rw [uploadGo_success_step outcome maxRetries url attempt n lastError hgt houtcome]
        simp
      | failure e =>
        by_cases hstop : (attempt = maxRetries || !isNetworkError e) = true
        · rw [uploadGo_stop_step outcome maxRetries url attempt n lastError e hgt houtcome hstop]
          simp
        · have hstopf := Bool.eq_false_iff.mpr hstop
          rw [uploadGo_retry_step outcome maxRetries url attempt n lastError e hgt houtcome hstopf]
          have hlt : attempt < maxRetries := by
            rcases Bool.or_eq_false_iff.mp hstopf with ⟨h1, _⟩
            have h2 : attempt ≠ maxRetries := by
              intro hx
              simp [hx] at h1
            omega
          have hrec := ih (attempt + 1) (some e) (by omega)
          have hpos := uploadGo_attempts_pos outcome maxRetries url n (attempt + 1) (some e)
            (by omega) (by omega)
          simp only [hrec]
          have hshape : (uploadGo outcome maxRetries url (attempt + 1) n
              (some e)).attemptsMade + 1 - 1 =
              ((uploadGo outcome maxRetries url (attempt + 1) n (some e)).attemptsMade - 1) + 1 := by
            omega
          rw [hshape, List.range'_succ, List.map_cons]

/-- Helper: an attempt is retried (some later attempt is performed) only when
its outcome is a transient network failure. -/
theorem uploadGo_transient (outcome : Nat → UploadOutcome) (maxRetries : Nat) (url : String) :
    ∀ fuel attempt lastError k, attempt ≤ k →
      k + 1 < attempt + (uploadGo outcome maxRetries url attempt fuel lastError).attemptsMade →
      ∃ e, outcome k = .failure e ∧ isNetworkError e = true := by
  intro fuel
  induction fuel with
  | zero =>
    intro attempt lastError k hk hlt
    simp [uploadGo] at hlt
    omega
  | succ n ih =>
    intro attempt lastError k hk hlt
    by_cases hgt : maxRetries < attempt
    · rw [uploadGo_out outcome maxRetries url attempt (n + 1) lastError hgt] at hlt
      simp at hlt
      omega
    · cases houtcome : outcome attempt with
      | success =>
        rw [uploadGo_success_step outcome maxRetries url attempt n lastError hgt houtcome] at hlt
        simp at hlt
        omega
      | failure e =>
        by_cases hstop : (attempt = maxRetries || !isNetworkError e) = true
        · rw [uploadGo_stop_step outcome maxRetries url attempt n lastError e hgt houtcome
            hstop] at hlt
          simp at hlt
          omega
        · have hstopf := Bool.eq_false_iff.mpr hstop
          rw [uploadGo_retry_step outcome maxRetries url attempt n lastError e hgt houtcome
            hstopf] at hlt
          simp only [] at hlt
          rcases Nat.eq_or_lt_of_le hk with heq | hlt2
          · subst heq
            refine ⟨e, houtcome, ?_⟩
            rcases Bool.or_eq_false_iff.mp hstopf with ⟨_, h2⟩
            simpa using h2
          · exact ih (attempt + 1) (some e) k hlt2 (by omega)

/-- Helper: when every attempt in range fails transiently, the loop runs to
`maxRetries` attempts and surfaces the failure of the last one. -/
theorem uploadGo_exhaust (outcome : Nat → UploadOutcome) (maxRetries : Nat) (url : String) :
    ∀ fuel attempt lastError, maxRetries + 1 ≤ attempt + fuel → attempt ≤ maxRetries →
      (∀ n, attempt ≤ n → n ≤ maxRetries →
        ∃ e, outcome n = .failure e ∧ isNetworkError e = true) →
      (uploadGo outcome maxRetries url attempt fuel lastError).attemptsMade =
        maxRetries + 1 - attempt ∧
      ∀ e2, outcome maxRetries = .failure e2 →
        (uploadGo outcome maxRetries url attempt fuel lastError).result =
          .error (failMsg maxRetries (some e2)) := by
  intro fuel
  induction fuel with
  | zero =>
    intro attempt lastError hfuel hle hall
    omega
  | succ n ih =>
    intro attempt lastError hfuel hle hall
    obtain ⟨e, he, htr⟩ := hall attempt (Nat.le_refl attempt) hle
    have hgt : ¬ maxRetries < attempt := by omega
    rcases Nat.eq_or_lt_of_le hle with heq | hlt
    · have hstop : (attempt = maxRetries || !isNetworkError e) = true := by
        simp [heq]
      rw [uploadGo_stop_step outcome maxRetries url attempt n lastError e hgt he hstop]
      refine ⟨by simp; omega, ?_⟩
      intro e2 he2
      rw [heq] at he
      rw [he] at he2
      cases he2
      rfl
    · have hstop : (attempt = maxRetries || !isNetworkError e) = false := by
        have h1 : attempt ≠ maxRetries := by omega
        simp [h1, htr]
      rw [uploadGo_retry_step outcome maxRetries url attempt n lastError e hgt he hstop]
      have hrec := ih (attempt + 1) (some e) (by omega) (by omega)
        (fun m hm1 hm2 => hall m (by omega) hm2)
      refine ⟨?_, ?_⟩
      · simp only []
        rw [hrec.1]
        omega
      · intro e2 he2
        simp only []
        exact hrec.2 e2 he2

/-- C2: the retry loop of `uploadToS3` (1) performs at most `maxRetries`
attempts, (2) sleeps exactly `2 ^ n * 100` ms after each attempt `n` that is
retried, (3) retries an attempt only when its failure is transient
(`isNetworkError`), (4) aborts after a single attempt with no delay when the
first failure is not transient, and (5) when every attempt up to `maxRetries`
fails transiently, performs exactly `maxRetries` attempts and throws an error
whose message names the last underlying failure. -/
theorem uploadToS3_retry_spec (outcome : Nat → UploadOutcome) (maxRetries : Nat) (url : String) :
    (uploadToS3 outcome maxRetries url).attemptsMade ≤ maxRetries ∧
    (uploadToS3 outcome maxRetries url).delays =
      (List.range' 1 ((uploadToS3 outcome maxRetries url).attemptsMade - 1)).map
        (fun n => 2 ^ n * 100) ∧
    (∀ k, 1 ≤ k → k < (uploadToS3 outcome maxRetries url).attemptsMade →
      ∃ e, outcome k = .failure e ∧ isNetworkError e = true) ∧
    (∀ e, outcome 1 = .failure e → isNetworkError e = false → 1 ≤ maxRetries →
      uploadToS3 outcome maxRetries url = ⟨1, [], .error (failMsg maxRetries (some e))⟩) ∧
    ((∀ n, 1 ≤ n → n ≤ maxRetries → ∃ e, outcome n = .failure e ∧ isNetworkError e = true) →
      1 ≤ maxRetries →
      (uploadToS3 outcome maxRetries url).attemptsMade = maxRetries ∧
      ∀ e, outcome maxRetries = .failure e →
        (uploadToS3 outcome maxRetries url).result = .error (failMsg maxRetries (some e))) := by
  refine ⟨?_, ?_, ?_, ?_, ?_⟩
  · exact uploadGo_attempts_le outcome maxRetries url maxRetries 1 none
  · exact uploadGo_delays outcome maxRetries url maxRetries 1 none (by omega)
  · intro k hk1 hklt
    refine uploadGo_transient outcome maxRetries url maxRetries 1 none k hk1 ?_
    unfold uploadToS3 at hklt
    omega
  · intro e he hnet hmr
    unfold uploadToS3
    cases maxRetries with
    | zero => omega
    | succ m =>
      have hgt : ¬ m + 1 < 1 := by omega
      by_cases hm : m = 0
      · subst hm
        have hstop : ((1 : Nat) = 1 || !isNetworkError e) = true := by simp
        rw [uploadGo_stop_step outcome 1 url 1 0 none e hgt he hstop]
      · have hstop : ((1 : Nat) = m + 1 || !isNetworkError e) = true := by
          simp [hnet]
        cases m with
        | zero => exact absurd rfl hm
        | succ m2 =>
          rw [uploadGo_stop_step outcome (m2 + 2) url 1 (m2 + 1) none e hgt he hstop]
  · intro hall hmr
    have h := uploadGo_exhaust outcome maxRetries url maxRetries 1 none (by omega) hmr
      (fun n h1 h2 => hall n h1 h2)
    unfold uploadToS3
    exact ⟨by rw [h.1]; omega, h.2⟩

end S3Utils

/-- Witness for C2: with two attempts available, an all-transient outcome
performs both attempts and throws naming the second failure, while a
non-transient first failure aborts after one attempt with no delay. -/
theorem uploadToS3_retry_spec_witness :
    (S3Utils.uploadToS3 (fun _ => .failure ⟨some "ENOTFOUND", none, "dns down"⟩) 2
        "u").attemptsMade = 2 ∧
    (S3Utils.uploadToS3 (fun _ => .failure ⟨some "ENOTFOUND", none, "dns down"⟩) 2 "u").result =
      .error (S3Utils.failMsg 2 (some ⟨some "ENOTFOUND", none, "dns down"⟩)) ∧
    S3Utils.uploadToS3 (fun _ => .failure ⟨some "AccessDenied", none, "forbidden"⟩) 2 "u" =
      ⟨1, [], .error (S3Utils.failMsg 2 (some ⟨some "AccessDenied", none, "forbidden"⟩))⟩ := by
  have h1 := (S3Utils.uploadToS3_retry_spec
      (fun _ => .failure ⟨some "ENOTFOUND", none, "dns down"⟩) 2 "u").2.2.2.2
    (fun n _ _ => ⟨⟨some "ENOTFOUND", none, "dns down"⟩, rfl, rfl⟩) (by omega)
  have h2 := (S3Utils.uploadToS3_retry_spec
      (fun _ => .failure ⟨some "AccessDenied", none, "forbidden"⟩) 2 "u").2.2.2.1
    ⟨some "AccessDenied", none, "forbidden"⟩ rfl (by rfl) (by omega)
  exact ⟨h1.1, h1.2 ⟨some "ENOTFOUND", none, "dns down"⟩ rfl, h2⟩

/-! ## C4: terminal video-response validation -/

namespace Gemini

/-- The `video` object of one generated sample; `uri` is `none` when absent
and `some ""` when present but empty (both falsy in the source). -/
structure SampleVideo where
  uri : Option String
deriving Repr, DecidableEq

/-- One element of the generated-samples collection. -/
structure GeneratedSample where
  video : Option SampleVideo
deriving Repr, DecidableEq

/-- The fields of `videoOperation.response` inspected by the validation code
(src/unnamed/part_001, lines 662-719).  `generateVideoSamples` models
`generateVideoResponse?.generatedSamples`. -/
structure VideosResponse where
  error : Option String
  raiMediaFilteredCount : Option Int
  raiMediaFilteredReasons : Option (List String)
  generatedVideos : Option (List GeneratedSample)
  generateVideoSamples : Option (List GeneratedSample)
deriving Repr, DecidableEq

/-- Identity of the error thrown out of the validation region: one
constructor per `NodeOperationError` of the source, plus `uriError` for the
`URIError` that `decodeURIComponent` itself throws on a malformed URI and
that propagates to the item catch handler. -/
inductive VideoValidationError where
  | noResponse
  | providerError (detail : String)
  | safetyFiltered (reasons : List String)
  | noVideos
  | missingUri
  | uriError
  | emptyUri
deriving Repr, DecidableEq

end Gemini

/-- Hexadecimal value of a character, `none` for a non-hex character. -/
def hexVal (c : Char) : Option Nat :=
  if c.isDigit then some (c.toNat - '0'.toNat)
  else if 'a' ≤ c ∧ c ≤ 'f' then some (c.toNat - 'a'.toNat + 10)
  else if 'A' ≤ c ∧ c ≤ 'F' then some (c.toNat - 'A'.toNat + 10)
  else none

/-- Is `b` a UTF-8 continuation byte (`10xxxxxx`)? -/
def contByte (b : Nat) : Bool :=
  decide (0x80 ≤ b) && decide (b ≤ 0xBF)

/-- Admissible second byte of a multi-byte UTF-8 sequence with leading byte
`b1` (RFC 3629 table, as required by the ECMA-262 Decode algorithm): the
narrowed ranges for E0 / ED / F0 / F4 exclude overlong encodings, surrogate
code points and values above U+10FFFF. -/
def validSecondByte (b1 b2 : Nat) : Bool :=
  if b1 = 0xE0 then decide (0xA0 ≤ b2) && decide (b2 ≤ 0xBF)
  else if b1 = 0xED then decide (0x80 ≤ b2) && decide (b2 ≤ 0x9F)
  else if b1 = 0xF0 then decide (0x90 ≤ b2) && decide (b2 ≤ 0xBF)
  else if b1 = 0xF4 then decide (0x80 ≤ b2) && decide (b2 ≤ 0x8F)
  else contByte b2

/-- One step of the ECMA-262 Decode algorithm with an empty reserved set,
i.e. JavaScript `decodeURIComponent`, at the head of the input: `c` is the
current character and `rest` the characters after it.  A character other than
`%` passes through; `%` must be followed by two hex digits giving a byte; a
byte below 0x80 decodes to itself; a valid UTF-8 leading byte must be
followed by the right number of further `%XX` escapes whose bytes complete a
valid UTF-8 encoding, decoded as one code point.  The result is the decoded
character and how many characters of `rest` the step consumed; `none` models
the thrown `URIError` (truncated or non-hex escape, stray continuation byte,
invalid leading byte, overlong encoding, surrogate, or value above
U+10FFFF). -/
def jsDecodeStep (c : Char) (rest : List Char) : Option (Char × Nat) :=
  if c = '%' then
    match rest with
    | a :: b :: rest2 =>
      match hexVal a, hexVal b with
      | some ha, some hb =>
        let b1 := 16 * ha + hb
        if b1 < 0x80 then some (Char.ofNat b1, 2)
        else if 0xC2 ≤ b1 ∧ b1 ≤ 0xDF then
          match rest2 with
          | '%' :: a2 :: b2 :: _ =>
            match hexVal a2, hexVal b2 with
            | some ha2, some hb2 =>
              let byte2 := 16 * ha2 + hb2
              if validSecondByte b1 byte2 then
                some (Char.ofNat ((b1 - 0xC0) * 0x40 + (byte2 - 0x80)), 5)
              else none
            | _, _ => none
          | _ => none
        else if 0xE0 ≤ b1 ∧ b1 ≤ 0xEF then
          match rest2 with
          | '%' :: a2 :: b2 :: '%' :: a3 :: b3 :: _ =>
            match hexVal a2, hexVal b2, hexVal a3, hexVal b3 with
            | some ha2, some hb2, some ha3, some hb3 =>
              let byte2 := 16 * ha2 + hb2
              let byte3 := 16 * ha3 + hb3
              if validSecondByte b1 byte2 && contByte byte3 then
                some (Char.ofNat ((b1 - 0xE0) * 0x1000 + (byte2 - 0x80) * 0x40 +
                  (byte3 - 0x80)), 8)
              else none
            | _, _, _, _ => none
          | _ => none
        else if 0xF0 ≤ b1 ∧ b1 ≤ 0xF4 then
          match rest2 with
          | '%' :: a2 :: b2 :: '%' :: a3 :: b3 :: '%' :: a4 :: b4 :: _ =>
            match hexVal a2, hexVal b2, hexVal a3, hexVal b3, hexVal a4, hexVal b4 with
            | some ha2, some hb2, some ha3, some hb3, some ha4, some hb4 =>
              let byte2 := 16 * ha2 + hb2
              let byte3 := 16 * ha3 + hb3
              let byte4 := 16 * ha4 + hb4
              if validSecondByte b1 byte2 && contByte byte3 && contByte byte4 then
                some (Char.ofNat ((b1 - 0xF0) * 0x40000 + (byte2 - 0x80) * 0x1000 +
                  (byte3 - 0x80) * 0x40 + (byte4 - 0x80)), 11)
              else none
            | _, _, _, _, _, _ => none
          | _ => none
        else none
      | _, _ => none
    | _ => none
  else some (c, 0)

/-- The Decode loop: apply `jsDecodeStep` until the input is exhausted.  The
`fuel` argument only bounds the recursion; each step consumes at least the
head character, so the `l.length` fuel used by `jsDecodeURIComponentList` is
never exhausted (`jsDecodeGo_fuel_irrelevant`). -/
def jsDecodeGo : Nat → List Char → Option (List Char)
  | _, [] => some []
  | 0, _ :: _ => none
  | fuel + 1, c :: rest =>
    match jsDecodeStep c rest with
    | none => none
    | some (ch, used) =>
      match jsDecodeGo fuel (rest.drop used) with
      | some d => some (ch :: d)
      | none => none

/-- Model of JavaScript `decodeURIComponent` over the character list; `none`
models the thrown URIError. -/
def jsDecodeURIComponentList (l : List Char) : Option (List Char) :=
  jsDecodeGo l.length l

/-- String version of `jsDecodeURIComponentList`: `none` is the thrown
URIError. -/
def jsDecodeURIComponent (s : String) : Option String :=
  match jsDecodeURIComponentList s.data with
  | some d => some ⟨d⟩
  | none => none

/-- Helper: any fuel at least the input length gives the same result, so the
fuel bound of `jsDecodeURIComponentList` is never the reason for a `none`. -/
theorem jsDecodeGo_fuel_irrelevant :
    ∀ fuel1 fuel2 l, l.length ≤ fuel1 → l.length ≤ fuel2 →
      jsDecodeGo fuel1 l = jsDecodeGo fuel2 l := by
  intro fuel1
  induction fuel1 with
  | zero =>
    intro fuel2 l h1 h2
    cases l with
    | nil => cases fuel2 <;> rfl
    | cons c rest => simp at h1
  | succ f1 ih =>
    intro fuel2 l h1 h2
    cases l with
    | nil => cases fuel2 <;> rfl
    | cons c rest =>
      cases fuel2 with
      | zero => simp at h2
      | succ f2 =>
        simp only [jsDecodeGo]
        cases hstep : jsDecodeStep c rest with
        | none => rfl
        | some pr =>
          obtain ⟨ch, used⟩ := pr
          have hlen : (rest.drop used).length ≤ rest.length := by
            rw [List.length_drop]
            omega
          have hl1 : rest.length + 1 ≤ f1 + 1 := by simpa using h1
          have hl2 : rest.length + 1 ≤ f2 + 1 := by simpa using h2
          dsimp only
          rw [ih f2 (rest.drop used) (by omega) (by omega)]

/-- Helper: a successful decode of a non-empty string is non-empty (every
successful step emits a code point). -/
theorem jsDecodeURIComponentList_cons_ne_nil (c : Char) (l d : List Char)
    (h : jsDecodeURIComponentList (c :: l) = some d) : d ≠ [] := by
  unfold jsDecodeURIComponentList at h
  rw [List.length_cons] at h
  rw [jsDecodeGo] at h
  cases hstep : jsDecodeStep c l with
  | none =>
    rw [hstep] at h
    exact Option.noConfusion h
  | some pr =>
    obtain ⟨ch, used⟩ := pr
    rw [hstep] at h
    dsimp only at h
    cases hrec : jsDecodeGo l.length (l.drop used) with
    | none =>
      rw [hrec] at h
      exact Option.noConfusion h
    | some d2 =>
      rw [hrec] at h
      injection h with h2
      rw [← h2]
      exact List.cons_ne_nil _ _

namespace Gemini

/-- The JavaScript truthiness test `count && count > 0` on the
`raiMediaFilteredCount` field. -/
def countPositive (count : Option Int) : Bool :=
  match count with
  | some c => decide (0 < c)
  | none => false

/-- The `generatedVideos || generateVideoResponse?.generatedSamples` fallback
(src/unnamed/part_001, line 692); an empty array is truthy. -/
def effectiveSamples (r : VideosResponse) : Option (List GeneratedSample) :=
  match r.generatedVideos with
  | some v => some v
  | none => r.generateVideoSamples

/-- Embedding of the terminal-response validation of the `generateVideo`
branch (src/unnamed/part_001, lines 662-719): the strictly ordered checks
applied to `videoOperation.response`, returning the percent-decoded URI of
the first generated sample. -/
def validateVideoResponse (response : Option VideosResponse) :
    Except VideoValidationError String :=
  match response with
  | none => .error .noResponse
  | some r =>
    match r.error with
    | some d => .error (.providerError d)
    | none =>
      if countPositive r.raiMediaFilteredCount then
        .error (.safetyFiltered (r.raiMediaFilteredReasons.getD []))
      else
        match effectiveSamples r with
        | none => .error .noVideos
        | some [] => .error .noVideos
        | some (firstVideo :: _) =>
          match firstVideo.video with
          | none => .error .missingUri
          | some v =>
            match v.uri with
            | none => .error .missingUri
            | some u =>
              if !jsTruthy u then .error .missingUri
              else
                match jsDecodeURIComponent u with
                | none => .error .uriError
                | some videoUri =>
                  if !jsTruthy videoUri then .error .emptyUri
                  else .ok videoUri

end Gemini

/-- C4: validation of a terminal video-generation response proceeds in strict
order — missing body, then explicit provider error, then positive
filtered count (reasons carried verbatim), then a missing or empty sample
collection or a first sample without a usable URI ("no usable output"), and
otherwise the first sample URI is percent-decoded and returned, with every
later sample ignored; a URI on which `decodeURIComponent` throws propagates
that URIError instead of returning. -/
theorem validateVideoResponse_spec :
    Gemini.validateVideoResponse none = .error .noResponse ∧
    (∀ r d, r.error = some d →
      Gemini.validateVideoResponse (some r) = .error (.providerError d)) ∧
    (∀ r, r.error = none → Gemini.countPositive r.raiMediaFilteredCount = true →
      Gemini.validateVideoResponse (some r) =
        .error (.safetyFiltered (r.raiMediaFilteredReasons.getD []))) ∧
    (∀ r, r.error = none → Gemini.countPositive r.raiMediaFilteredCount = false →
      (Gemini.effectiveSamples r = none ∨ Gemini.effectiveSamples r = some []) →
      Gemini.validateVideoResponse (some r) = .error .noVideos) ∧
    (∀ r s0 rest, r.error = none → Gemini.countPositive r.raiMediaFilteredCount = false →
      Gemini.effectiveSamples r = some (s0 :: rest) →
      (s0.video = none ∨ s0.video = some ⟨none⟩ ∨ s0.video = some ⟨some ""⟩) →
      Gemini.validateVideoResponse (some r) = .error .missingUri) ∧
    (∀ r s0 rest u d, r.error = none → Gemini.countPositive r.raiMediaFilteredCount = false →
      Gemini.effectiveSamples r = some (s0 :: rest) →
      s0.video = some ⟨some u⟩ → jsTruthy u = true →
      jsDecodeURIComponent u = some d →
      Gemini.validateVideoResponse (some r) = .ok d) ∧
    (∀ r s0 rest u, r.error = none → Gemini.countPositive r.raiMediaFilteredCount = false →
      Gemini.effectiveSamples r = some (s0 :: rest) →
      s0.video = some ⟨some u⟩ → jsTruthy u = true →
      jsDecodeURIComponent u = none →
      Gemini.validateVideoResponse (some r) = .error .uriError) := by
  refine ⟨rfl, ?_, ?_, ?_, ?_, ?_, ?_⟩
  · intro r d hd
    simp [Gemini.validateVideoResponse, hd]
  · intro r he hc
    simp [Gemini.validateVideoResponse, he, hc]
  · intro r he hc hs
    rcases hs with hs | hs <;>
      simp [Gemini.validateVideoResponse, he, hc, hs]
  · intro r s0 rest he hc hs hv
    rcases hv with hv | hv | hv <;>
      simp [Gemini.validateVideoResponse, he, hc, hs, hv, jsTruthy]
  · intro r s0 rest u d he hc hs hv hu hd
    have hdecne : jsTruthy d = true := by
      simp only [jsDecodeURIComponent] at hd
      cases hd2 : jsDecodeURIComponentList u.data with
      | none => rw [hd2] at hd; cases hd
      | some d2 =>
        rw [hd2] at hd
        cases hd
        rcases hx : u.data with _ | ⟨c, l⟩
        · rw [jsTruthy, hx] at hu
          simp at hu
        · rw [hx] at hd2
          have := jsDecodeURIComponentList_cons_ne_nil c l d2 hd2
          rw [jsTruthy]
          simpa using this
    simp [Gemini.validateVideoResponse, he, hc, hs, hv, hu, hd, hdecne]
  · intro r s0 rest u he hc hs hv hu hd
    simp [Gemini.validateVideoResponse, he, hc, hs, hv, hu, hd]

/-- Witness for C4: a single-escape URI decodes and validates to its decoded
form with the second sample discarded, a two-byte UTF-8 escape pair decodes
as one code point, and a malformed escape surfaces the URIError. -/
theorem validateVideoResponse_spec_witness :
    Gemini.validateVideoResponse
        (some ⟨none, some 0, none, some [⟨some ⟨some "https://x/a%20b"⟩⟩, ⟨some ⟨some "other"⟩⟩],
          none⟩) = .ok "https://x/a b" ∧
    Gemini.validateVideoResponse
        (some ⟨none, none, none, some [⟨some ⟨some "caf%C3%A9"⟩⟩], none⟩) = .ok "café" ∧
    Gemini.validateVideoResponse
        (some ⟨none, none, none, some [⟨some ⟨some "%zz"⟩⟩], none⟩) = .error .uriError := by
  refine ⟨?_, ?_, ?_⟩
  · exact validateVideoResponse_spec.2.2.2.2.2.1
      ⟨none, some 0, none, some [⟨some ⟨some "https://x/a%20b"⟩⟩, ⟨some ⟨some "other"⟩⟩], none⟩
      ⟨some ⟨some "https://x/a%20b"⟩⟩ [⟨some ⟨some "other"⟩⟩] "https://x/a%20b" "https://x/a b"
      rfl (by rfl) (by rfl) rfl (by rfl) (by decide)
  · exact validateVideoResponse_spec.2.2.2.2.2.1
      ⟨none, none, none, some [⟨some ⟨some "caf%C3%A9"⟩⟩], none⟩
      ⟨some ⟨some "caf%C3%A9"⟩⟩ [] "caf%C3%A9" "café"
      rfl (by rfl) (by rfl) rfl (by rfl) (by decide)
  · exact validateVideoResponse_spec.2.2.2.2.2.2
      ⟨none, none, none, some [⟨some ⟨some "%zz"⟩⟩], none⟩
      ⟨some ⟨some "%zz"⟩⟩ [] "%zz"
      rfl (by rfl) (by rfl) rfl (by rfl) (by decide)

/-! ## C5: polling loop termination and deadline -/

namespace Gemini

/-- Exit of the polling loop: normal completion or timeout, each recording
the number of status refreshes performed; `fuelOut` is the artefact of the
fuel-bounded embedding and is proven unreachable. -/
inductive PollResult where
  | completed (polls : Nat)
  | timedOut (polls : Nat)
  | fuelOut
deriving Repr, DecidableEq

/-- Embedding of the polling loop of the `generateVideo` branch
(src/unnamed/part_001, lines 644-660).  `done k` is the `done` flag of the
operation after `k` refreshes (`done 0` is the flag of the initial
submission), `p` is the polling interval and `maxW` the maximum wait, both in
milliseconds.  The elapsed time at the top of the iteration after `k` sleeps
is `k * p` (the refresh request itself is treated as instantaneous), so the
loop matches the source order: done-check, deadline-check (strictly greater),
sleep, refresh. -/
def pollLoop (done : Nat → Bool) (p maxW : Nat) : Nat → Nat → PollResult
  | _k, 0 => .fuelOut
  | k, fuel + 1 =>
    if done k then .completed k
    else if maxW < k * p then .timedOut k
    else pollLoop done p maxW (k + 1) fuel

/-- The polling phase with its fuel instantiated so that the deadline check
always fires before the fuel runs out. -/
def pollVideoOperation (done : Nat → Bool) (p maxW : Nat) : PollResult :=
  pollLoop done p maxW 0 (maxW / p + 2)

/-- Helper: with the deadline inside the fuel budget the loop cannot run out
of fuel. -/
theorem pollLoop_no_fuelOut (done : Nat → Bool) (p maxW : Nat) :
    ∀ fuel k, 1 ≤ fuel → maxW + 1 ≤ (k + fuel - 1) * p →
      pollLoop done p maxW k fuel ≠ .fuelOut := by
  intro fuel
  induction fuel with
  | zero => intro k h1 _; omega
  | succ n ih =>
    intro k _ hsuf
    simp only [pollLoop]
    by_cases hd : done k = true
    · simp [hd]
    · have hdf := Bool.eq_false_iff.mpr hd
      simp only [hdf, Bool.false_eq_true, if_false]
      by_cases ht : maxW < k * p
      · simp [ht]
      · simp only [ht, if_false]
        cases n with
        | zero =>
          exfalso
          have hk : (k + (0 + 1) - 1) * p = k * p := by
            congr 1
          rw [hk] at hsuf
          omega
        | succ n2 =>
          apply ih (k + 1)
          · omega
          · have he : (k + 1 + (n2 + 1) - 1) * p = (k + (n2 + 1 + 1) - 1) * p := by
              congr 1
              omega
            rw [he]
            exact hsuf

/-- Helper: invariants of the two loop exits.  The counter invariant
`k * p ≤ maxW + p` holds initially and is preserved because the loop only
sleeps again after a deadline check that passed. -/
theorem pollLoop_exits (done : Nat → Bool) (p maxW : Nat) :
    ∀ fuel k, k * p ≤ maxW + p → (∀ j, j < k → done j = false) →
      (∀ m, pollLoop done p maxW k fuel = .completed m →
        done m = true ∧ (∀ j, j < m → done j = false) ∧ m * p ≤ maxW + p) ∧
      (∀ m, pollLoop done p maxW k fuel = .timedOut m →
        done m = false ∧ maxW < m * p ∧ m * p ≤ maxW + p ∧ ∀ j, j < m → done j = false) := by
  intro fuel
  induction fuel with
  | zero =>
    intro k _ _
    constructor <;> intro m h <;> simp [pollLoop] at h
  | succ n ih =>
    intro k hinv hprev
    by_cases hd : done k = true
    · constructor <;> intro m h <;> simp only [pollLoop, hd, if_true] at h
      · cases h
        exact ⟨hd, hprev, hinv⟩
      · cases h
    · have hdf := Bool.eq_false_iff.mpr hd
      by_cases ht : maxW < k * p
      · constructor <;> intro m h <;>
          simp only [pollLoop, hdf, Bool.false_eq_true, if_false, ht, if_true] at h
        · cases h
        · cases h
          exact ⟨hdf, ht, hinv, hprev⟩
      · have hrec := ih (k + 1)
          (by
            have : (k + 1) * p = k * p + p := by rw [Nat.succ_mul]
            omega)
          (by
            intro j hj
            rcases Nat.lt_succ_iff_lt_or_eq.mp hj with hj2 | hj2
            · exact hprev j hj2
            · subst hj2; exact hdf)
        constructor <;> intro m h <;>
          simp only [pollLoop, hdf, Bool.false_eq_true, if_false, ht] at h
        · exact hrec.1 m h
        · exact hrec.2 m h

end Gemini

/-- C5: for a positive polling interval the polling loop never runs out of
fuel before a terminal exit; a normal exit happens at the first refresh index
whose operation reports done, with total waited time `m * p ≤ maxW + p`; a
timeout exit happens only once the elapsed time strictly exceeds `maxW`,
while still within `maxW + p`, so no further poll is issued after the
deadline (every performed refresh was preceded by a passed deadline
check). -/
theorem pollVideoOperation_spec (done : Nat → Bool) (p maxW : Nat) (hp : 0 < p) :
    Gemini.pollVideoOperation done p maxW ≠ .fuelOut ∧
    (∀ m, Gemini.pollVideoOperation done p maxW = .completed m →
      done m = true ∧ (∀ j, j < m → done j = false) ∧ m * p ≤ maxW + p) ∧
    (∀ m, Gemini.pollVideoOperation done p maxW = .timedOut m →
      done m = false ∧ maxW < m * p ∧ m * p ≤ maxW + p ∧ ∀ j, j < m → done j = false) := by
  refine ⟨?_, ?_, ?_⟩
  · apply Gemini.pollLoop_no_fuelOut done p maxW (maxW / p + 2) 0
      (Nat.succ_le_succ (Nat.zero_le (maxW / p + 1)))
    have hdm := Nat.div_add_mod maxW p
    have hmod : maxW % p < p := Nat.mod_lt maxW hp
    have he : (0 + (maxW / p + 2) - 1) * p = p * (maxW / p) + p := by
      have h1 : 0 + (maxW / p + 2) - 1 = maxW / p + 1 := by
        rw [Nat.zero_add]
        rfl
      rw [h1, Nat.succ_mul, Nat.mul_comm]
    rw [he]
    calc maxW + 1 = p * (maxW / p) + maxW % p + 1 := by rw [hdm]
      _ ≤ p * (maxW / p) + p := by
          rw [Nat.add_assoc]
          exact Nat.add_le_add_left hmod _
  · intro m h
    exact (Gemini.pollLoop_exits done p maxW (maxW / p + 2) 0 (by omega)
      (by intro j hj; omega)).1 m h
  · intro m h
    exact (Gemini.pollLoop_exits done p maxW (maxW / p + 2) 0 (by omega)
      (by intro j hj; omega)).2 m h

/-- Witness for C5: with a 10 ms interval an operation done at the second
refresh completes after two polls, and a never-done operation with a 25 ms
deadline times out at the third poll, 30 ms elapsed, within deadline plus one
interval. -/
theorem pollVideoOperation_spec_witness :
    (Gemini.pollVideoOperation (fun k => decide (2 ≤ k)) 10 100 = .completed 2 ∧
      (2 : Nat) * 10 ≤ 100 + 10) ∧
    (Gemini.pollVideoOperation (fun _ => false) 10 25 = .timedOut 3 ∧
      25 < (3 : Nat) * 10 ∧ (3 : Nat) * 10 ≤ 25 + 10) := by
  constructor
  · have h := (pollVideoOperation_spec (fun k => decide (2 ≤ k)) 10 100 (by omega)).2.1 2 (by rfl)
    exact ⟨by rfl, h.2.2⟩
  · have h := (pollVideoOperation_spec (fun _ => false) 10 25 (by omega)).2.2 3 (by rfl)
    exact ⟨by rfl, h.2.1, h.2.2.1⟩

/-! ## C7: multi-speaker voice assignment -/

namespace Gemini

/-- A voice request of one speaker: a literal voice id or one of the three
randomized category picks. -/
inductive VoiceReq where
  | literal (name : String)
  | randomAll
  | randomMale
  | randomFemale
deriving Repr, DecidableEq

/-- The static voice catalogs imported from the text-to-speech description
module (not under src/), abstracted as plain lists. -/
structure VoicePools where
  allVoices : List String
  maleVoices : List String
  femaleVoices : List String
deriving Repr, DecidableEq

/-- Model of `pool[Math.floor(Math.random() * pool.length)]` for a random
draw `r`: index `r % pool.length` (the JavaScript index is always in range;
the modulus makes the model total). -/
def pickAt (pool : List String) (r : Nat) : String :=
  pool.getD (r % pool.length) ""

/-- Embedding of the per-speaker voice selection (src/unnamed/part_001, lines
387-414): a literal voice id is used as given; a randomized request filters
out the voices already used and falls back to an unconstrained pick from the
full category pool when the filter comes up empty. -/
def chooseVoice (pools : VoicePools) (used : List String) (r : Nat) : VoiceReq → String
  | .literal name => name
  | .randomAll =>
    let availableVoices := pools.allVoices.filter (fun v => !used.contains v)
    if availableVoices.isEmpty then pickAt pools.allVoices r else pickAt availableVoices r
  | .randomMale =>
    let availableMaleVoices := pools.maleVoices.filter (fun v => !used.contains v)
    if availableMaleVoices.isEmpty then pickAt pools.maleVoices r
    else pickAt availableMaleVoices r
  | .randomFemale =>
    let availableFemaleVoices := pools.femaleVoices.filter (fun v => !used.contains v)
    if availableFemaleVoices.isEmpty then pickAt pools.femaleVoices r
    else pickAt availableFemaleVoices r

/-- Embedding of the `speakerVoices.map` loop with its `usedVoices` set
(src/unnamed/part_001, lines 384-427): every chosen voice (also a literal
one) is added to the used set before the next speaker is processed; `rand
idx` supplies the random draw consumed for speaker `idx`. -/
def assignVoices (pools : VoicePools) (rand : Nat → Nat) :
    List VoiceReq → Nat → List String → List String
  | [], _, _ => []
  | req :: rest, idx, used =>
    let voiceName := chooseVoice pools used (rand idx) req
    voiceName :: assignVoices pools rand rest (idx + 1) (voiceName :: used)

/-- The pool a randomized request of each category draws from. -/
def categoryPool (pools : VoicePools) : VoiceReq → Option (List String)
  | .literal _ => none
  | .randomAll => some pools.allVoices
  | .randomMale => some pools.maleVoices
  | .randomFemale => some pools.femaleVoices

/-- Helper: a pick from a non-empty pool is an element of the pool. -/
theorem pickAt_mem (pool : List String) (r : Nat) (h : pool ≠ []) :
    pickAt pool r ∈ pool := by
  have hlen : 0 < pool.length := List.length_pos.mpr h
  have hr : r % pool.length < pool.length := Nat.mod_lt r hlen
  rw [pickAt, List.getD_eq_getElem pool "" hr]
  exact List.getElem_mem hr

/-- Helper: closed form of a randomized pick of any category. -/
theorem chooseVoice_random (pools : VoicePools) (req : VoiceReq) (pool : List String)
    (hcat : categoryPool pools req = some pool) (used : List String) (r : Nat) :
    chooseVoice pools used r req =
      (if (pool.filter (fun v => !used.contains v)).isEmpty then pickAt pool r
       else pickAt (pool.filter (fun v => !used.contains v)) r) := by
  cases req with
  | literal name => simp [categoryPool] at hcat
  | randomAll =>
    simp only [categoryPool, Option.some.injEq] at hcat
    subst hcat
    rfl
  | randomMale =>
    simp only [categoryPool, Option.some.injEq] at hcat
    subst hcat
    rfl
  | randomFemale =>
    simp only [categoryPool, Option.some.injEq] at hcat
    subst hcat
    rfl

/-- Helper: removing one value from a duplicate-free list costs at most one
element. -/
theorem length_le_filter_ne {l : List String} (hnd : l.Nodup) (a : String) :
    l.length ≤ (l.filter (fun v => !(v == a))).length + 1 := by
  induction l with
  | nil => simp
  | cons b t ih =>
    rw [List.nodup_cons] at hnd
    by_cases hba : (b == a) = true
    · have hab : b = a := by simpa using hba
      have hkeep : t.filter (fun v => !(v == a)) = t := by
        apply List.filter_eq_self.mpr
        intro v hv
        have hne : v ≠ a := by
          intro he
          subst he
          exact hnd.1 (by rw [hab]; exact hv)
        simpa using hne
      simp [List.filter_cons, hba, hkeep]
    · have hq : (!(b == a)) = true := by simp [hba]
      rw [List.filter_cons]
      simp only [hq, if_true, List.length_cons]
      have := ih hnd.2
      omega

/-- Helper: invariant of the assignment loop — as long as the unused part of
the pool can cover the remaining speakers, the produced voices are pairwise
distinct and disjoint from the used set. -/
theorem assignVoices_aux (pools : VoicePools) (rand : Nat → Nat) (req : VoiceReq)
    (pool : List String) (hcat : categoryPool pools req = some pool) (hnd : pool.Nodup) :
    ∀ N idx used, N ≤ (pool.filter (fun v => !used.contains v)).length →
      (assignVoices pools rand (List.replicate N req) idx used).Nodup ∧
      ∀ v ∈ assignVoices pools rand (List.replicate N req) idx used, v ∉ used := by
  intro N
  induction N with
  | zero =>
    intro idx used _
    simp [assignVoices]
  | succ n ih =>
    intro idx used hlen
    have hAne : pool.filter (fun v => !used.contains v) ≠ [] := by
      intro hx
      rw [hx] at hlen
      simp at hlen
    have hAemp : (pool.filter (fun v => !used.contains v)).isEmpty = false := by
      cases hAe : (pool.filter (fun v => !used.contains v)).isEmpty
      · rfl
      · exact absurd (List.isEmpty_iff.mp hAe) hAne
    have hchoose : chooseVoice pools used (rand idx) req =
        pickAt (pool.filter (fun v => !used.contains v)) (rand idx) := by
      rw [chooseVoice_random pools req pool hcat used (rand idx), hAemp]
      simp
    have hmem : pickAt (pool.filter (fun v => !used.contains v)) (rand idx) ∈
        pool.filter (fun v => !used.contains v) :=
      pickAt_mem _ (rand idx) hAne
    have hnotused : pickAt (pool.filter (fun v => !used.contains v)) (rand idx) ∉ used := by
      have h2 := (List.mem_filter.mp hmem).2
      intro hin
      have h3 : used.contains (pickAt (pool.filter (fun v => !used.contains v)) (rand idx)) =
          true := List.elem_iff.mpr hin
      rw [h3] at h2
      simp at h2
    have hfilter_eq :
        pool.filter (fun v =>
          !((pickAt (pool.filter (fun v2 => !used.contains v2)) (rand idx) :: used).contains v)) =
        (pool.filter (fun v => !used.contains v)).filter (fun v =>
          !(v == pickAt (pool.filter (fun v2 => !used.contains v2)) (rand idx))) := by
      rw [List.filter_filter]
      apply List.filter_congr
      intro v _
      rw [List.contains_cons]
      simp [Bool.not_or]
    have hAnd : (pool.filter (fun v => !used.contains v)).Nodup := hnd.filter _
    have hlen2 : n ≤ (pool.filter (fun v =>
        !((pickAt (pool.filter (fun v2 => !used.contains v2)) (rand idx) :: used).contains
          v))).length := by
      rw [hfilter_eq]
      have := length_le_filter_ne hAnd
        (pickAt (pool.filter (fun v2 => !used.contains v2)) (rand idx))
      omega
    have hrec := ih (idx + 1)
      (pickAt (pool.filter (fun v2 => !used.contains v2)) (rand idx) :: used) hlen2
    constructor
    · rw [List.replicate_succ]
      simp only [assignVoices, hchoose]
      refine List.nodup_cons.mpr ⟨?_, hrec.1⟩
      intro hinc
      exact (hrec.2 _ hinc) (List.mem_cons_self _ _)
    · intro v hv
      rw [List.replicate_succ] at hv
      simp only [assignVoices, hchoose, List.mem_cons] at hv
      rcases hv with hv | hv
      · subst hv
        exact hnotused
      · have := hrec.2 v hv
        intro hin
        exact this (List.mem_cons_of_mem _ hin)

end Gemini

/-- C7: for any random draws, when N speakers (N at most the category pool
size, the pool duplicate-free) all request a random voice of the same
category, the assigned voices are pairwise distinct; moreover a randomized
pick never returns a voice in the used set while the unused part of the pool
is non-empty, and once it is empty the pick falls back to an unconstrained
draw from the full category pool (a value, not an error). -/
theorem multiSpeaker_voice_assignment_spec (pools : Gemini.VoicePools) (rand : Nat → Nat)
    (req : Gemini.VoiceReq) (pool : List String) (N : Nat)
    (hcat : Gemini.categoryPool pools req = some pool) (hnd : pool.Nodup)
    (hN : N ≤ pool.length) :
    (Gemini.assignVoices pools rand (List.replicate N req) 0 []).Nodup ∧
    (∀ used r, (pool.filter (fun v => !used.contains v)).isEmpty = false →
      Gemini.chooseVoice pools used r req ∉ used) ∧
    (∀ used r, (pool.filter (fun v => !used.contains v)).isEmpty = true →
      Gemini.chooseVoice pools used r req = Gemini.pickAt pool r) := by
  refine ⟨?_, ?_, ?_⟩
  · apply (Gemini.assignVoices_aux pools rand req pool hcat hnd N 0 [] ?_).1
    have hfe : pool.filter (fun v => !([] : List String).contains v) = pool := by
      apply List.filter_eq_self.mpr
      intro v _
      rfl
    rw [hfe]
    exact hN
  · intro used r hne
    have hAne : pool.filter (fun v => !used.contains v) ≠ [] := by
      intro hx
      rw [hx] at hne
      simp at hne
    rw [Gemini.chooseVoice_random pools req pool hcat used r, hne]
    simp only [Bool.false_eq_true, if_false]
    have hmem := Gemini.pickAt_mem (pool.filter (fun v => !used.contains v)) r hAne
    have h2 := (List.mem_filter.mp hmem).2
    intro hin
    have h3 : used.contains (Gemini.pickAt (pool.filter (fun v => !used.contains v)) r) =
        true := List.elem_iff.mpr hin
    rw [h3] at h2
    simp at h2
  · intro used r he
    rw [Gemini.chooseVoice_random pools req pool hcat used r, he]
    simp

/-- Witness for C7: two speakers drawing random male voices from a two-voice
male pool receive distinct voices, for the concrete draw sequence 0,0,... -/
theorem multiSpeaker_voice_assignment_spec_witness :
    (Gemini.assignVoices ⟨["Puck", "Kore", "Zephyr"], ["Puck", "Kore"], ["Zephyr"]⟩
        (fun _ => 0) (List.replicate 2 .randomMale) 0 []).Nodup ∧
    Gemini.chooseVoice ⟨["Puck", "Kore", "Zephyr"], ["Puck", "Kore"], ["Zephyr"]⟩
        ["Puck", "Kore"] 0 .randomMale = Gemini.pickAt ["Puck", "Kore"] 0 := by
  constructor
  · exact (multiSpeaker_voice_assignment_spec
      ⟨["Puck", "Kore", "Zephyr"], ["Puck", "Kore"], ["Zephyr"]⟩ (fun _ => 0) .randomMale
      ["Puck", "Kore"] 2 rfl (by decide) (by decide)).1
  · exact (multiSpeaker_voice_assignment_spec
      ⟨["Puck", "Kore", "Zephyr"], ["Puck", "Kore"], ["Zephyr"]⟩ (fun _ => 0) .randomMale
      ["Puck", "Kore"] 2 rfl (by decide) (by decide)).2.2 ["Puck", "Kore"] 0 (by decide)

/-! ## C8: audio stripping is non-fatal -/

namespace VideoUtils

/-- Oracle for the effectful steps of `removeAudioFromVideo`: whether the
temp-file write succeeds, whether the ffmpeg subprocess exits successfully
(false also covers a missing binary and the 60 s timeout), and the bytes read
back from the output file (`none` when reading fails). -/
structure FfmpegEnv where
  writeOk : Bool
  execOk : Bool
  readData : Option (List Nat)
deriving Repr, DecidableEq

/-- The try-block of `removeAudioFromVideo`
(src/nodes/Gemini/utils/videoUtils.ts, lines 225-249) in an exception monad:
write the input temp file, run ffmpeg, read the output temp file. -/
def removeAudioBody (env : FfmpegEnv) : Except String (List Nat) :=
  match env.writeOk with
  | false => .error "write failed"
  | true =>
    match env.execOk with
    | false => .error "ffmpeg failed"
    | true =>
      match env.readData with
      | none => .error "read failed"
      | some d => .ok d

/-- Embedding of `VideoUtils.removeAudioFromVideo`
(src/nodes/Gemini/utils/videoUtils.ts, lines 209-262): the catch-block maps
every failure of the body to the original buffer with `audioRemoved = false`;
the total return type is the no-raise guarantee. -/
def removeAudioFromVideo (env : FfmpegEnv) (videoBuffer : List Nat) : List Nat × Bool :=
  match removeAudioBody env with
  | .ok processedBuffer => (processedBuffer, true)
  | .error _ => (videoBuffer, false)

end VideoUtils

/-- C8: `removeAudioFromVideo` never raises: it is a total function into
buffer-flag pairs; a failed subprocess (or any other failed step) yields the
original input bytes with `audioRemoved = false`, a false flag always comes
with the unchanged input bytes, and a fully successful run yields the remuxed
bytes with `audioRemoved = true`. -/
theorem removeAudioFromVideo_spec (env : VideoUtils.FfmpegEnv) (videoBuffer : List Nat) :
    (env.execOk = false →
      VideoUtils.removeAudioFromVideo env videoBuffer = (videoBuffer, false)) ∧
    ((VideoUtils.removeAudioFromVideo env videoBuffer).2 = false →
      (VideoUtils.removeAudioFromVideo env videoBuffer).1 = videoBuffer) ∧
    (∀ d, VideoUtils.removeAudioBody env = .ok d →
      VideoUtils.removeAudioFromVideo env videoBuffer = (d, true)) ∧
    (∀ msg, VideoUtils.removeAudioBody env = .error msg →
      VideoUtils.removeAudioFromVideo env videoBuffer = (videoBuffer, false)) := by
  refine ⟨?_, ?_, ?_, ?_⟩
  · intro hexec
    cases hw : env.writeOk <;>
      simp [VideoUtils.removeAudioFromVideo, VideoUtils.removeAudioBody, hw, hexec]
  · intro hflag
    cases hb : VideoUtils.removeAudioBody env with
    | ok d =>
      rw [VideoUtils.removeAudioFromVideo, hb] at hflag ⊢
      simp at hflag
    | error msg =>
      rw [VideoUtils.removeAudioFromVideo, hb]
  · intro d hb
    rw [VideoUtils.removeAudioFromVideo, hb]
  · intro msg hb
    rw [VideoUtils.removeAudioFromVideo, hb]

/-- Witness for C8: a failing ffmpeg run returns the input unchanged with a
false flag; a successful run returns the remuxed bytes with a true flag. -/
theorem removeAudioFromVideo_spec_witness :
    VideoUtils.removeAudioFromVideo ⟨true, false, none⟩ [7, 7, 7] = ([7, 7, 7], false) ∧
    VideoUtils.removeAudioFromVideo ⟨true, true, some [1, 2]⟩ [7, 7, 7] = ([1, 2], true) := by
  constructor
  · exact (removeAudioFromVideo_spec ⟨true, false, none⟩ [7, 7, 7]).1 rfl
  · exact (removeAudioFromVideo_spec ⟨true, true, some [1, 2]⟩ [7, 7, 7]).2.2.1 [1, 2] rfl

/-! ## C9: error-message sanitization -/

namespace Gemini

/-- The character class `[\x00-\x1F\x7F-\x9F]` of the sanitizing regular
expression (src/unnamed/part_001, line 1014). -/
def isControlCC (c : Char) : Bool :=
  c.toNat ≤ 0x1F || (0x7F ≤ c.toNat && c.toNat ≤ 0x9F)

/-- Model of `message.replace(/[\x00-\x1F\x7F-\x9F]/g, '')`: drop every
character of the class. -/
def stripControlChars (s : String) : String :=
  ⟨s.data.filter (fun c => !isControlCC c)⟩

/-- The `sanitizedMessage` computation of the catch handler
(src/unnamed/part_001, lines 1013-1015, identical in
src/nodes/Gemini/Gemini.node.ts, lines 652-654); `none` models an absent
`error.message` and an empty string is falsy just as in the source. -/
def sanitizeErrorMessage (message : Option String) : String :=
  match message with
  | some m => if jsTruthy m then stripControlChars m else "Unknown error occurred"
  | none => "Unknown error occurred"

/-- What the catch handler does with the sanitized message: record it on the
item (continue-on-failure) or raise it to abort the batch. -/
inductive CatchOutcome where
  | recorded (errorField : String)
  | raised (message : String)
deriving Repr, DecidableEq

/-- Embedding of the catch handler (src/unnamed/part_001, lines 1011-1028). -/
def handleItemError (continueOnFail : Bool) (message : Option String) : CatchOutcome :=
  if continueOnFail then .recorded (sanitizeErrorMessage message)
  else .raised (sanitizeErrorMessage message)

/-- The message text the caller sees in either outcome. -/
def CatchOutcome.surfacedMessage : CatchOutcome → String
  | .recorded errorField => errorField
  | .raised message => message

end Gemini

/-- C9: in both catch-handler outcomes the surfaced message is the sanitized
one; it contains no character of the control ranges; a truthy underlying
message surfaces exactly as its character list filtered by the control class;
an absent or empty message surfaces as "Unknown error occurred". -/
theorem errorSanitization_spec (continueOnFail : Bool) (message : Option String) :
    (Gemini.handleItemError continueOnFail message).surfacedMessage =
      Gemini.sanitizeErrorMessage message ∧
    ((Gemini.handleItemError continueOnFail message).surfacedMessage).data.all
      (fun c => !Gemini.isControlCC c) = true ∧
    (∀ m, message = some m → jsTruthy m = true →
      (Gemini.handleItemError continueOnFail message).surfacedMessage =
        ⟨m.data.filter (fun c => !Gemini.isControlCC c)⟩) ∧
    ((message = none ∨ message = some "") →
      (Gemini.handleItemError continueOnFail message).surfacedMessage =
        "Unknown error occurred") := by
  have hsur : (Gemini.handleItemError continueOnFail message).surfacedMessage =
      Gemini.sanitizeErrorMessage message := by
    cases continueOnFail <;> rfl
  refine ⟨hsur, ?_, ?_, ?_⟩
  · rw [hsur]
    cases message with
    | none => decide
    | some m =>
      by_cases hm : jsTruthy m = true
      · rw [Gemini.sanitizeErrorMessage, if_pos hm]
        apply List.all_eq_true.mpr
        intro c hc
        exact (List.mem_filter.mp hc).2
      · rw [Gemini.sanitizeErrorMessage, if_neg hm]
        decide
  · intro m hm htr
    rw [hsur, hm, Gemini.sanitizeErrorMessage, if_pos htr]
    rfl
  · intro hcase
    rw [hsur]
    rcases hcase with hc | hc <;> rw [hc] <;> rfl

/-- Witness for C9: a message carrying a NUL and an escape byte surfaces with
them stripped, in both the recorded and the raised outcome. -/
theorem errorSanitization_spec_witness :
    (Gemini.handleItemError true (some "bad\x00data\x1bhere")).surfacedMessage =
      "baddatahere" ∧
    (Gemini.handleItemError false none).surfacedMessage = "Unknown error occurred" := by
  constructor
  · have h := (errorSanitization_spec true (some "bad\x00data\x1bhere")).2.2.1
      "bad\x00data\x1bhere" rfl (by decide)
    rw [h]
    decide
  · exact (errorSanitization_spec false none).2.2.2 (Or.inl rfl)

/-! ## C10: generateImage keeps only the first image without S3 -/

namespace Gemini

/-- JavaScript `value || dflt` on an optional string. -/
def jsOrStr (o : Option String) (dflt : String) : String :=
  match o with
  | some s => if jsTruthy s then s else dflt
  | none => dflt

/-- JavaScript truthiness of an optional string field. -/
def jsTruthyOpt (o : Option String) : Bool :=
  match o with
  | some s => jsTruthy s
  | none => false

/-- The substring after the last slash: model of `s.split('/').pop()`. -/
def lastSegment (s : String) : String :=
  ⟨(s.data.reverse.takeWhile (fun c => !(c = '/'))).reverse⟩

/-- The `inlineData` field of one response part. -/
structure InlineImagePart where
  mimeType : Option String
  data : Option String
deriving Repr, DecidableEq

/-- One part of the model response: an inline image, a text chunk, or
something else (skipped by both branches of the loop). -/
inductive ResponsePart where
  | inlineData (d : InlineImagePart)
  | textPart (t : String)
  | otherPart
deriving Repr, DecidableEq

/-- One element of the `generatedImages` array.  In the S3 branch the entry
carries a URL and no bytes; in the binary branch it carries the base64 bytes
produced by `ImageUtils.saveBinaryToNodeData` (whose result object, as used
by the assembly code, has `data`, `mimeType` and `fileName` fields and no
`url`). -/
structure GenImage where
  url : Option String
  data : Option String
  mimeType : String
  fileName : String
deriving Repr, DecidableEq

/-- Embedding of the response-parts loop of the `generateImage` branch
(src/unnamed/part_001, lines 249-295): builds the accumulated `textResponse`
and the `generatedImages` array.  `urlOf k` is the URL returned by the S3
upload performed for file index `k`; `nameOf k` is the generated `img_` file
name for index `k`. -/
def collectImages (uploadToS3 : Bool) (urlOf nameOf : Nat → String) :
    List ResponsePart → Nat → String × List GenImage
  | [], _ => ("", [])
  | part :: rest, fileIndex =>
    match part with
    | .inlineData d =>
      let mimeType := jsOrStr d.mimeType "image/png"
      let dataStr := jsOrStr d.data ""
      let res := collectImages uploadToS3 urlOf nameOf rest (fileIndex + 1)
      if uploadToS3 then
        (res.1,
          { url := some (urlOf fileIndex), data := none, mimeType := mimeType,
            fileName := lastSegment (urlOf fileIndex) } :: res.2)
      else
        (res.1,
          { url := none, data := some dataStr, mimeType := mimeType,
            fileName := nameOf fileIndex } :: res.2)
    | .textPart t =>
      let res := collectImages uploadToS3 urlOf nameOf rest fileIndex
      (t ++ res.1, res.2)
    | .otherPart => collectImages uploadToS3 urlOf nameOf rest fileIndex

/-- Image metadata listed in `result.images` in the S3 case. -/
structure ImageMeta where
  url : String
  fileName : String
  mimeType : String
deriving Repr, DecidableEq

/-- The JSON part of the returned item for `generateImage`. -/
structure ImageJsonResult where
  text : String
  totalTokens : Nat
  images : Option (List ImageMeta)
  imageUrl : Option String
  metadata : Option (String × String)
deriving Repr, DecidableEq

/-- The binary attachment of the returned item. -/
structure BinaryData where
  data : String
  mimeType : String
  fileName : String
deriving Repr, DecidableEq

/-- The full returned item. -/
structure ImageResponseData where
  json : ImageJsonResult
  binary : Option BinaryData
deriving Repr, DecidableEq

/-- Embedding of the result assembly of the `generateImage` branch
(src/unnamed/part_001, lines 297-343; identical in
src/nodes/Gemini/Gemini.node.ts, lines 602-648): the truthiness of
`generatedImages[0].url` selects the S3 shape (all images listed, first URL
kept for backward compatibility, no binary) or the binary shape (metadata and
binary data of the first image only). -/
def assembleImageResult (textResponse : String) (generatedImages : List GenImage) :
    ImageResponseData :=
  let base : ImageJsonResult :=
    { text := textResponse, totalTokens := textResponse.length, images := none,
      imageUrl := none, metadata := none }
  match generatedImages with
  | [] => { json := base, binary := none }
  | first :: _ =>
    if jsTruthyOpt first.url then
      { json :=
          { base with
            images := some (generatedImages.map
              (fun img =>
                { url := img.url.getD ""
                  fileName := img.fileName
                  mimeType := img.mimeType })),
            imageUrl := first.url },
        binary := none }
    else
      { json := { base with metadata := some (first.mimeType, first.fileName) },
        binary := some
          { data := first.data.getD ""
            mimeType := first.mimeType
            fileName := first.fileName } }

/-- Number of inline-image parts of a response. -/
def countInline : List ResponsePart → Nat
  | [] => 0
  | .inlineData _ :: rest => countInline rest + 1
  | _ :: rest => countInline rest

end Gemini

/-- C10: without S3 upload the returned item is assembled from the first
generated image alone — its metadata in the JSON, its bytes as the binary
attachment, no `images` array, and the remaining images nowhere (the result
expression does not mention them) — while with S3 upload every collected
image is uploaded (one URL per inline part, so the array has one entry per
image) and all of them are listed in `result.images`. -/
theorem generateImage_first_only_spec (urlOf nameOf : Nat → String) :
    (∀ textResponse first rest, first.url = none →
      Gemini.assembleImageResult textResponse (first :: rest) =
        ⟨⟨textResponse, textResponse.length, none, none,
            some (first.mimeType, first.fileName)⟩,
          some ⟨first.data.getD "", first.mimeType, first.fileName⟩⟩) ∧
    (∀ textResponse first rest u, first.url = some u → jsTruthy u = true →
      Gemini.assembleImageResult textResponse (first :: rest) =
        ⟨⟨textResponse, textResponse.length,
            some ((first :: rest).map (fun img =>
              ⟨img.url.getD "", img.fileName, img.mimeType⟩)),
            some u, none⟩, none⟩) ∧
    (∀ parts fileIndex,
      ∀ g ∈ (Gemini.collectImages false urlOf nameOf parts fileIndex).2, g.url = none) ∧
    (∀ parts fileIndex,
      (Gemini.collectImages true urlOf nameOf parts fileIndex).2.length =
        Gemini.countInline parts ∧
      (Gemini.collectImages false urlOf nameOf parts fileIndex).2.length =
        Gemini.countInline parts) := by
  refine ⟨?_, ?_, ?_, ?_⟩
  · intro textResponse first rest hurl
    simp [Gemini.assembleImageResult, Gemini.jsTruthyOpt, hurl]
  · intro textResponse first rest u hurl htr
    simp [Gemini.assembleImageResult, Gemini.jsTruthyOpt, hurl, htr]
  · intro parts
    induction parts with
    | nil =>
      intro fileIndex g hg
      simp [Gemini.collectImages] at hg
    | cons part rest ih =>
      intro fileIndex g hg
      cases part with
      | inlineData d =>
        simp only [Gemini.collectImages, Bool.false_eq_true, if_false, List.mem_cons] at hg
        rcases hg with hg | hg
        · subst hg
          rfl
        · exact ih (fileIndex + 1) g hg
      | textPart t =>
        simp only [Gemini.collectImages] at hg
        exact ih fileIndex g hg
      | otherPart =>
        simp only [Gemini.collectImages] at hg
        exact ih fileIndex g hg
  · intro parts
    induction parts with
    | nil =>
      intro fileIndex
      simp [Gemini.collectImages, Gemini.countInline]
    | cons part rest ih =>
      intro fileIndex
      cases part with
      | inlineData d =>
        simp only [Gemini.collectImages, Gemini.countInline, Bool.false_eq_true, if_false,
          if_true, List.length_cons]
        exact ⟨by rw [(ih (fileIndex + 1)).1], by rw [(ih (fileIndex + 1)).2]⟩
      | textPart t =>
        simp only [Gemini.collectImages, Gemini.countInline]
        exact ih fileIndex
      | otherPart =>
        simp only [Gemini.collectImages, Gemini.countInline]
        exact ih fileIndex

/-- Witness for C10: a response with two inline images and one text part,
collected without S3, assembles to the first image only (its bytes in the
binary attachment, no images array); the same parts collected with S3 yield
two uploads. -/
theorem generateImage_first_only_spec_witness :
    Gemini.assembleImageResult "hi"
        [⟨none, some "AAAA", "image/png", "img_0"⟩, ⟨none, some "BBBB", "image/jpeg", "img_1"⟩] =
      ⟨⟨"hi", 2, none, none, some ("image/png", "img_0")⟩,
        some ⟨"AAAA", "image/png", "img_0"⟩⟩ ∧
    (Gemini.collectImages true (fun k => "https://b/k" ++ toString k) (fun k => "img_" ++ toString k)
        [.inlineData ⟨some "image/png", some "AAAA"⟩, .textPart "hi",
          .inlineData ⟨some "image/jpeg", some "BBBB"⟩] 0).2.length = 2 := by
  constructor
  · have h := (generateImage_first_only_spec (fun _ => "") (fun _ => "")).1 "hi"
      ⟨none, some "AAAA", "image/png", "img_0"⟩ [⟨none, some "BBBB", "image/jpeg", "img_1"⟩] rfl
    rw [h]
    rfl
  · have h := ((generateImage_first_only_spec (fun k => "https://b/k" ++ toString k)
      (fun k => "img_" ++ toString k)).2.2.2
      [.inlineData ⟨some "image/png", some "AAAA"⟩, .textPart "hi",
        .inlineData ⟨some "image/jpeg", some "BBBB"⟩] 0).1
    rw [h]
    rfl
